import Mathlib

/-!
Shallow embedding of the diagnostic collection-and-analysis pipeline of
kubectl-fluid-inspect (pkg/diagnose/diagnoser.go, pkg/k8s/client.go,
pkg/k8s/events_logs.go) and proofs about it.

Strings are modelled at the byte/char level as `List Char` where line-level
reasoning is required (Go `strings.Split`/`Join`/`Contains`/`ToLower`), and as
Lean `String` elsewhere.  Go `int32`/`int64` counters are modelled as `Int`
(no arithmetic in the embedded code can overflow 32 bits on the inputs the
theorems quantify over).  The Kubernetes API client is modelled as an oracle
record of pure functions returning `Except`, mirroring each Go method's
(value, error) signature.
-/

/-- Substring test on char lists, mirroring Go `strings.Contains`:
`containsSeq needle hay` is true iff `needle` occurs contiguously in `hay`. -/
def containsSeq (needle : List Char) : List Char → Bool
  | [] => needle.isEmpty
  | c :: t => needle.isPrefixOf (c :: t) || containsSeq needle t

/-- Substring test on strings (Go `strings.Contains`). -/
def containsStr (sub s : String) : Bool :=
  containsSeq sub.data s.data

/-- ASCII model of Go `strings.ToLower` on a single character. -/
def lowerChar (c : Char) : Char :=
  if 65 ≤ c.toNat ∧ c.toNat ≤ 90 then Char.ofNat (c.toNat + 32) else c

/-- ASCII model of Go `strings.ToLower` on a char list. -/
def toLowerC (l : List Char) : List Char :=
  l.map lowerChar

/-- Go `strings.Split(s, "\n")` on a char list: split at every newline.
`splitLinesC [] = [[]]` matches Go, where splitting the empty string yields
one empty field. -/
def splitLinesC : List Char → List (List Char)
  | [] => [[]]
  | c :: cs =>
    if c = '\n' then [] :: splitLinesC cs
    else
      match splitLinesC cs with
      | [] => [[c]]
      | l :: ls => (c :: l) :: ls

/-- Go `strings.Join(ls, "\n")` on char lists. -/
def joinLinesC : List (List Char) → List Char
  | [] => []
  | [l] => l
  | l :: ls => l ++ '\n' :: joinLinesC ls

theorem splitLinesC_ne_nil (s : List Char) : splitLinesC s ≠ [] := by
  induction s with
  | nil => simp [splitLinesC]
  | cons c cs ih =>
    simp only [splitLinesC]
    split
    · simp
    · split
      · simp
      · simp

theorem splitLinesC_newline (cs : List Char) :
    splitLinesC ('\n' :: cs) = [] :: splitLinesC cs := by
  simp [splitLinesC]

theorem splitLinesC_cons_of_ne (c : Char) (cs : List Char) (h : c ≠ '\n') :
    ∃ l ls, splitLinesC cs = l :: ls ∧ splitLinesC (c :: cs) = (c :: l) :: ls := by
  rcases hs : splitLinesC cs with _ | ⟨l, ls⟩
  · exact absurd hs (splitLinesC_ne_nil cs)
  · refine ⟨l, ls, rfl, ?_⟩
    simp [splitLinesC, h, hs]

/-- Splitting a newline-free line is the identity (one field). -/
theorem splitLinesC_no_newline (l : List Char) (hl : '\n' ∉ l) :
    splitLinesC l = [l] := by
  induction l with
  | nil => simp [splitLinesC]
  | cons c cs ih =>
    have hc : c ≠ '\n' := fun h => hl (h ▸ List.mem_cons_self c cs)
    have hcs : '\n' ∉ cs := fun h => hl (List.mem_cons_of_mem c h)
    obtain ⟨m, ms, hsplit, hstep⟩ := splitLinesC_cons_of_ne c cs hc
    rw [hstep]
    rw [ih hcs] at hsplit
    cases hsplit
    rfl

/-- Splitting `l ++ "\n" ++ rest` for a newline-free `l` yields `l` as the
first field followed by the fields of `rest`. -/
theorem splitLinesC_append_line (l : List Char) (hl : '\n' ∉ l) (cs : List Char) :
    splitLinesC (l ++ '\n' :: cs) = l :: splitLinesC cs := by
  induction l with
  | nil => simpa using splitLinesC_newline cs
  | cons c rest ih =>
    have hc : c ≠ '\n' := fun h => hl (h ▸ List.mem_cons_self c rest)
    have hrest : '\n' ∉ rest := fun h => hl (List.mem_cons_of_mem c h)
    obtain ⟨m, ms, hsplit, hstep⟩ := splitLinesC_cons_of_ne c (rest ++ '\n' :: cs) hc
    rw [List.cons_append, hstep]
    rw [ih hrest] at hsplit
    cases hsplit
    rfl

/-- Every field of a split contains no newline. -/
theorem splitLinesC_mem_no_newline (s : List Char) :
    ∀ m ∈ splitLinesC s, '\n' ∉ m := by
  induction s with
  | nil =>
    intro m hm
    simp [splitLinesC] at hm
    simp [hm]
  | cons c cs ih =>
    intro m hm
    by_cases hc : c = '\n'
    · subst hc
      rw [splitLinesC_newline] at hm
      rcases List.mem_cons.mp hm with h | h
      · simp [h]
      · exact ih m h
    · obtain ⟨l, ls, hsplit, hstep⟩ := splitLinesC_cons_of_ne c cs hc
      rw [hstep] at hm
      rcases List.mem_cons.mp hm with h | h
      · subst h
        intro hmem
        rcases List.mem_cons.mp hmem with h | h
        · exact hc h.symm
        · exact ih l (hsplit ▸ List.mem_cons_self l ls) h
      · exact ih m (hsplit ▸ List.mem_cons_of_mem l h)

/-- Split is a left inverse of join on nonempty lists of newline-free lines. -/
theorem splitLinesC_joinLinesC (ls : List (List Char)) (hne : ls ≠ [])
    (hnl : ∀ l ∈ ls, '\n' ∉ l) :
    splitLinesC (joinLinesC ls) = ls := by
  induction ls with
  | nil => exact absurd rfl hne
  | cons l rest ih =>
    cases rest with
    | nil =>
      simp only [joinLinesC]
      exact splitLinesC_no_newline l (hnl l (List.mem_cons_self l []))
    | cons m ms =>
      have hjoin : joinLinesC (l :: m :: ms) = l ++ '\n' :: joinLinesC (m :: ms) := rfl
      rw [hjoin, splitLinesC_append_line l (hnl l (List.mem_cons_self l _))]
      rw [ih (by simp) (fun x hx => hnl x (List.mem_cons_of_mem l hx))]

/-- Trim of ASCII whitespace at both ends (model of Go `strings.TrimSpace`). -/
def trimSpaceC (l : List Char) : List Char :=
  ((l.dropWhile (fun c => c = ' ' ∨ c = '\t' ∨ c = '\n' ∨ c = '\r')).reverse.dropWhile
    (fun c => c = ' ' ∨ c = '\t' ∨ c = '\n' ∨ c = '\r')).reverse

/-- Everything after the first occurrence of `c` (model of the second field of
Go `strings.SplitN(line, ":", 2)` when `c` occurs). -/
def afterCharC (c : Char) : List Char → List Char
  | [] => []
  | x :: xs => if x = c then xs else afterCharC c xs

/-- Translation of `normalizeLogs`'s per-line test (diagnoser.go:666-671):
the lowercased line contains one of the five secret tokens. -/
def lineHasSecret (lower : List Char) : Bool :=
  containsSeq ("password".data) lower ||
  containsSeq ("secret".data) lower ||
  containsSeq ("token".data) lower ||
  containsSeq ("api_key".data) lower ||
  containsSeq ("apikey".data) lower

/-- Per-line body of the `normalizeLogs` loop (diagnoser.go:664-675). -/
def redactLineC (l : List Char) : List Char :=
  if lineHasSecret (toLowerC l) then "[REDACTED]".data else l

/-- Translation of `normalizeLogs` (diagnoser.go:660-678): split into lines,
replace each secret-bearing line wholesale with the redaction marker, rejoin. -/
def normalizeLogs (logs : String) : String :=
  String.mk (joinLinesC ((splitLinesC logs.data).map redactLineC))

/-- Spec-side predicate ("secret-indicating token ... case-insensitive
substring match") with the token set the code actually uses:
password, secret, token, api_key, apikey. -/
def secretLineSpec (l : List Char) : Bool :=
  (["password", "secret", "token", "api_key", "apikey"].map String.data).any
    (fun tok => containsSeq tok (toLowerC l))

theorem redactLineC_eq_spec (l : List Char) :
    redactLineC l = if secretLineSpec l then "[REDACTED]".data else l := by
  have h : lineHasSecret (toLowerC l) = secretLineSpec l := by
    simp [lineHasSecret, secretLineSpec, Bool.or_assoc]
  rw [redactLineC, h]

theorem redactLineC_no_newline (l : List Char) (hl : '\n' ∉ l) :
    '\n' ∉ redactLineC l := by
  rw [redactLineC]
  split
  · decide
  · exact hl

theorem redactLineC_idem (l : List Char) :
    redactLineC (redactLineC l) = redactLineC l := by
  by_cases h : lineHasSecret (toLowerC l) = true
  · have h1 : redactLineC l = "[REDACTED]".data := by rw [redactLineC, if_pos h]
    rw [h1]
    rw [redactLineC]
    norm_num [show lineHasSecret (toLowerC ("[REDACTED]".data)) = false by decide]
  · have h1 : redactLineC l = l := by
      rw [redactLineC, if_neg (by simpa using h)]
    rw [h1, redactLineC, if_neg (by simpa using h)]

theorem normalizeLogs_idem (s : String) :
    normalizeLogs (normalizeLogs s) = normalizeLogs s := by
  simp only [normalizeLogs]
  have hsplit : splitLinesC (joinLinesC ((splitLinesC s.data).map redactLineC))
      = (splitLinesC s.data).map redactLineC := by
    apply splitLinesC_joinLinesC
    · simpa using splitLinesC_ne_nil s.data
    · intro l hl
      obtain ⟨m, hm, hml⟩ := List.mem_map.mp hl
      exact hml ▸ redactLineC_no_newline m (splitLinesC_mem_no_newline s.data m hm)
  rw [hsplit]
  congr 1
  rw [List.map_map]
  congr 1
  apply List.map_congr_left
  intro a _
  exact redactLineC_idem a

/-- Line-level refinement of `normalizeLogs`: output lines are exactly the
input lines with each secret line replaced by the marker and all other lines
untouched. -/
theorem normalizeLogs_lines (s : String) :
    splitLinesC (normalizeLogs s).data =
      (splitLinesC s.data).map
        (fun l => if secretLineSpec l then "[REDACTED]".data else l) := by
  simp only [normalizeLogs]
  have hsplit : splitLinesC (joinLinesC ((splitLinesC s.data).map redactLineC))
      = (splitLinesC s.data).map redactLineC := by
    apply splitLinesC_joinLinesC
    · simpa using splitLinesC_ne_nil s.data
    · intro l hl
      obtain ⟨m, hm, hml⟩ := List.mem_map.mp hl
      exact hml ▸ redactLineC_no_newline m (splitLinesC_mem_no_newline s.data m hm)
  rw [hsplit]
  apply List.map_congr_left
  intro a _
  exact redactLineC_eq_spec a

/-- Translation of `extractPhaseFromYAML` (diagnoser.go:637-649): find the
first line containing "phase:", return the trimmed text after the first
colon; "Unknown" if no line matches. -/
def extractPhaseFromYAML (yamlStr : String) : String :=
  match (splitLinesC yamlStr.data).find? (fun l => containsSeq ("phase:".data) l) with
  | some l => String.mk (trimSpaceC (afterCharC ':' l))
  | none => "Unknown"

/-- Failure hint (types.go `FailureHint`). -/
structure FailureHint where
  severity : String
  component : String
  issue : String
  suggestion : String
  evidence : String := ""
deriving DecidableEq, Repr

/-- Individual pod status (types.go `PodStatus`). -/
structure PodStatus where
  name : String
  phase : String
  ready : Bool := false
  restartCount : Int := 0
  reason : String := ""
  message : String := ""
  nodeName : String := ""
  containerState : String := ""
  conditions : List String := []
deriving DecidableEq, Repr

/-- Status of a pod group (types.go `PodGroupStatus`). -/
structure PodGroupStatus where
  name : String
  kind : String
  desired : Int
  ready : Int
  available : Int
  unavailable : Int
  healthy : Bool
  pods : List PodStatus := []
  failingPods : List PodStatus := []
deriving DecidableEq, Repr

/-- PVC diagnostic info (types.go `PVCDiagnostic`). -/
structure PVCDiagnostic where
  name : String
  phase : String
  volumeName : String := ""
  storageClass : String := ""
  capacity : String := ""
deriving DecidableEq, Repr

/-- PV diagnostic info (types.go `PVDiagnostic`). -/
structure PVDiagnostic where
  name : String
  phase : String
  storageClass : String := ""
  capacity : String := ""
  reclaimPolicy : String := ""
deriving DecidableEq, Repr

/-- Kubernetes event information (types.go `EventInfo`); timestamps are
modelled as integers (nanoseconds since epoch), with Go `Time.After` as `<`
on them. -/
structure EventInfo where
  type : String
  reason : String := ""
  message : String := ""
  count : Int := 0
  firstTimestamp : Int := 0
  lastTimestamp : Int
  source : String := ""
  objectKind : String := ""
  objectName : String := ""
deriving DecidableEq, Repr

/-- Collected resource statuses (types.go `DiagnosticResources`); Go nil
pointers are `none`. -/
structure DiagnosticResources where
  master : Option PodGroupStatus := none
  workers : Option PodGroupStatus := none
  fuse : Option PodGroupStatus := none
  pvc : Option PVCDiagnostic := none
  pv : Option PVDiagnostic := none
deriving DecidableEq, Repr

/-- A captured log tail (types.go `LogEntry`); Go zero values are the
defaults. -/
structure LogEntry where
  podName : String
  containerName : String := ""
  logs : String := ""
  tailLines : Int := 0
  truncated : Bool := false
  error : String := ""
deriving DecidableEq, Repr

/-- Collected logs (types.go `DiagnosticLogs`). -/
structure DiagnosticLogs where
  master : Option LogEntry := none
  workers : List LogEntry := []
  fuse : List LogEntry := []
deriving DecidableEq, Repr

/-- Overall health classification (types.go `HealthStatus` constants). -/
inductive HealthStatus where
  | healthy
  | degraded
  | unhealthy
  | unknown
deriving DecidableEq, Repr

/-- The complete diagnostic result (types.go `DiagnosticResult`); the Go
`Namespace` field is named `ns` here because `namespace` is a Lean keyword. -/
structure DiagnosticResult where
  collectedAt : Int := 0
  datasetName : String := ""
  ns : String := ""
  datasetYAML : String := ""
  runtimeYAML : String := ""
  runtimeType : String := ""
  events : List EventInfo := []
  resources : DiagnosticResources := {}
  logs : DiagnosticLogs := {}
  failureHints : List FailureHint := []
  healthStatus : HealthStatus := .unknown
deriving DecidableEq, Repr

/-- Summary block of the AI-ready context (types.go `ContextSummary`). -/
structure ContextSummary where
  datasetName : String := ""
  ns : String := ""
  datasetPhase : String := ""
  runtimeType : String := ""
  healthStatus : HealthStatus := .unknown
  masterReady : String := ""
  workersReady : String := ""
  fuseReady : String := ""
  pvcStatus : String := ""
  errorCount : Int := 0
  warningCount : Int := 0
deriving DecidableEq, Repr

/-- AI-ready context (types.go `DiagnosticContext`); the Go `Logs` map is
modelled as an association list in insertion order (its keys are pairwise
distinct). -/
structure DiagnosticContext where
  summary : ContextSummary := {}
  datasetYAML : String := ""
  runtimeYAML : String := ""
  events : List EventInfo := []
  logs : List (String × String) := []
  failureHints : List FailureHint := []
  collectedAt : Int := 0
  version : String := ""
deriving DecidableEq, Repr

/-- StatefulSet spec subset used by the diagnoser (`*Spec.Replicas`, the Go
pointer deref; the code assumes a non-nil pointer). -/
structure StatefulSetSpecK where
  replicas : Int := 0
deriving DecidableEq, Repr

/-- StatefulSet status subset used by the diagnoser. -/
structure StatefulSetStatusK where
  readyReplicas : Int := 0
  availableReplicas : Int := 0
deriving DecidableEq, Repr

/-- Subset of `appsv1.StatefulSet` read by `collectResourceStatus`. -/
structure StatefulSetK where
  name : String
  spec : StatefulSetSpecK := {}
  status : StatefulSetStatusK := {}
deriving DecidableEq, Repr

/-- DaemonSet status subset used by the diagnoser. -/
structure DaemonSetStatusK where
  desiredNumberScheduled : Int := 0
  numberReady : Int := 0
  numberAvailable : Int := 0
  numberUnavailable : Int := 0
deriving DecidableEq, Repr

/-- Subset of `appsv1.DaemonSet` read by `collectResourceStatus`. -/
structure DaemonSetK where
  name : String
  status : DaemonSetStatusK := {}
deriving DecidableEq, Repr

/-- Subset of `corev1.PersistentVolumeClaim` read by the diagnoser; a `none`
`capacityStorage` covers both a nil capacity map and an absent "storage" key. -/
structure PVCObj where
  name : String
  phase : String
  volumeName : String := ""
  storageClassName : Option String := none
  capacityStorage : Option String := none
deriving DecidableEq, Repr

/-- Subset of `corev1.PersistentVolume` read by the diagnoser. -/
structure PVObj where
  name : String
  phase : String
  storageClassName : String := ""
  capacityStorage : Option String := none
  reclaimPolicy : String := ""
deriving DecidableEq, Repr

/-- Subset of `corev1.PodCondition` read by `extractPodStatus`/`isPodReady`. -/
structure PodConditionK where
  type : String
  status : String
  reason : String := ""
  message : String := ""
deriving DecidableEq, Repr

/-- Subset of `corev1.ContainerStatus`: restart count and the three mutually
exclusive state pointers (waiting/terminated carry reason and message). -/
structure ContainerStatusK where
  restartCount : Int := 0
  waiting : Option (String × String) := none
  terminated : Option (String × String) := none
  running : Bool := false
deriving DecidableEq, Repr

/-- Subset of `corev1.Pod` read by the diagnoser. -/
structure PodK where
  name : String
  nodeName : String := ""
  phase : String := ""
  containerStatuses : List ContainerStatusK := []
  conditions : List PodConditionK := []
deriving DecidableEq, Repr

/-- Outcome of probing one runtime variant kind in `TryFindRuntime`
(client.go:152-159): the object resolved (carrying its cleaned YAML), the
API returned not-found, or some other error (transport failure, CRD not
installed, ...). -/
inductive ProbeResult where
  | found (yaml : String)
  | notFound
  | otherError (e : String)
deriving DecidableEq, Repr

/-- Oracle model of `k8s.Client`: each field is one Go method, as a pure
function from the call arguments to the method's (value, error) pair.
CR-cleaning (`cleanCRForDiagnosis`) and YAML serialization are pure,
total transforms in the source, so fetched CRs are modelled directly by
their cleaned YAML text. -/
structure ClientOracle where
  now : Int := 0
  getDataset : String → String → Except String String := fun _ _ => .error "dataset not found"
  probeRuntime : String → String → String → ProbeResult := fun _ _ _ => .notFound
  getStatefulSet : String → String → Except String (Option StatefulSetK) := fun _ _ => .ok none
  getDaemonSet : String → String → Except String (Option DaemonSetK) := fun _ _ => .ok none
  getPVC : String → String → Except String (Option PVCObj) := fun _ _ => .ok none
  getPV : String → Except String PVObj := fun _ => .error "not found"
  listEventsFor : String → String → Except String (List EventInfo) := fun _ _ => .ok []
  listPodsByLabel : String → String → Except String (List PodK) := fun _ _ => .ok []
  getPodLogs : String → String → String → Int → Except String String := fun _ _ _ _ => .error "no logs"

/-- The fixed probing order of `TryFindRuntime` (client.go:135-143). -/
def runtimeTypesList : List String :=
  ["alluxioruntimes", "jindoruntimes", "juicefsruntimes", "efcruntimes",
   "thinruntimes", "vineyardruntimes", "goosefsruntimes"]

/-- The probe loop of `TryFindRuntime` (client.go:145-162): both the
not-found branch and the other-error branch `continue` to the next kind. -/
def tryFindRuntimeAux (probe : String → ProbeResult) : List String → Option (String × String)
  | [] => none
  | k :: ks =>
    match probe k with
    | .found yaml => some (yaml, k)
    | .notFound => tryFindRuntimeAux probe ks
    | .otherError _ => tryFindRuntimeAux probe ks

/-- Translation of `TryFindRuntime` (client.go:134-165); both return paths
carry a nil error, hence the unconditional `.ok`. -/
def tryFindRuntime (o : ClientOracle) (ns name : String) :
    Except String (Option (String × String)) :=
  .ok (tryFindRuntimeAux (fun k => o.probeRuntime ns name k) runtimeTypesList)

/-- Insertion step of the descending-by-lastTimestamp sort used to model Go
`sort.Slice(events, less)` with `less i j = events[i].LastTimestamp.After(events[j].LastTimestamp)`. -/
def insertEventDesc (e : EventInfo) : List EventInfo → List EventInfo
  | [] => [e]
  | x :: xs =>
    if x.lastTimestamp < e.lastTimestamp then e :: x :: xs
    else x :: insertEventDesc e xs

/-- Model of Go `sort.Slice` with the descending comparator: produces a
permutation of the input sorted non-increasingly by lastTimestamp (the
contract the source relies on). -/
def sortEventsDesc (l : List EventInfo) : List EventInfo :=
  l.foldr insertEventDesc []

/-- Translation of `GetEventsForObject` (events_logs.go:32-62): list events
whose involved object has the given name, then sort most-recent-first.  The
field-by-field copy of `corev1.Event` into `EventInfo` is the identity in
this model. -/
def getEventsForObject (o : ClientOracle) (ns name : String) :
    Except String (List EventInfo) :=
  match o.listEventsFor ns name with
  | .error e => .error ("failed to list events: " ++ e)
  | .ok evs => .ok (sortEventsDesc evs)

/-- Go `events, _ := ...` with a nil slice on error. -/
def eventsOrNil (x : Except String (List EventInfo)) : List EventInfo :=
  match x with
  | .ok l => l
  | .error _ => []

/-- Translation of `GetAllRelatedEvents` (events_logs.go:65-101): merge the
per-object event lists (dataset, `-master`, `-worker`, `-fuse`, and each pod
matching the release label), then sort all by last timestamp, descending.
Every per-object error is discarded (`_ :=` / skipped block) and the function
always returns a nil error. -/
def getAllRelatedEvents (o : ClientOracle) (ns datasetName : String) :
    Except String (List EventInfo) :=
  let e0 := eventsOrNil (getEventsForObject o ns datasetName)
  let e1 := eventsOrNil (getEventsForObject o ns (datasetName ++ "-master"))
  let e2 := eventsOrNil (getEventsForObject o ns (datasetName ++ "-worker"))
  let e3 := eventsOrNil (getEventsForObject o ns (datasetName ++ "-fuse"))
  let podEvents :=
    match o.listPodsByLabel ns ("release=" ++ datasetName) with
    | .ok pods =>
      pods.foldl (fun acc p => acc ++ eventsOrNil (getEventsForObject o ns p.name)) []
    | .error _ => []
  .ok (sortEventsDesc (e0 ++ e1 ++ e2 ++ e3 ++ podEvents))

/-- Translation of `isPodReady` (diagnoser.go:651-658): the status of the
first "Ready" condition, false if there is none. -/
def isPodReady (p : PodK) : Bool :=
  match p.conditions.find? (fun c => c.type == "Ready") with
  | some c => c.status == "True"
  | none => false

/-- Translation of `extractPodStatus` (diagnoser.go:264-301). -/
def extractPodStatus (pod : PodK) : PodStatus :=
  let base : PodStatus :=
    { name := pod.name, phase := pod.phase, nodeName := pod.nodeName,
      ready := isPodReady pod }
  let withCS :=
    match pod.containerStatuses with
    | [] => base
    | cs :: _ =>
      let b1 := { base with restartCount := cs.restartCount }
      match cs.waiting with
      | some rm => { b1 with containerState := "Waiting", reason := rm.1, message := rm.2 }
      | none =>
        match cs.terminated with
        | some rm => { b1 with containerState := "Terminated", reason := rm.1, message := rm.2 }
        | none => if cs.running then { b1 with containerState := "Running" } else b1
  { withCS with
    conditions := pod.conditions.filterMap (fun c =>
      if c.status == "False" && !(c.type == "Ready") then
        some (c.type ++ ": " ++ c.reason ++ " (" ++ c.message ++ ")")
      else none) }

/-- The bucketing loop of `collectPodStatus` (diagnoser.go:253-260): each
extracted status is appended to the healthy list iff its ready flag is set,
to the failing list otherwise. -/
def bucketPods (statuses : List PodStatus) : List PodStatus × List PodStatus :=
  statuses.foldl
    (fun acc st => if st.ready then (acc.1 ++ [st], acc.2) else (acc.1, acc.2 ++ [st]))
    ([], [])

/-- Translation of `collectPodStatus` (diagnoser.go:246-261): list pods by
the release/role label selector; on error leave both lists empty. -/
def collectPodStatus (o : ClientOracle) (ns datasetName role : String) :
    List PodStatus × List PodStatus :=
  match o.listPodsByLabel ns ("release=" ++ datasetName ++ ",role=alluxio-" ++ role) with
  | .error _ => ([], [])
  | .ok pods => bucketPods (pods.map extractPodStatus)

/-- Go `x, _ := get(...)` for getters returning `(ptr, error)`: the pointer is
nil both on not-found (`.ok none`) and on a discarded error. -/
def discardErrOpt {α : Type} (x : Except String (Option α)) : Option α :=
  match x with
  | .ok v => v
  | .error _ => none

/-- The group record built from a resolved StatefulSet
(diagnoser.go:158-166, 173-181). -/
def mkStsGroup (sts : StatefulSetK) (buckets : List PodStatus × List PodStatus) :
    PodGroupStatus :=
  { name := sts.name, kind := "StatefulSet",
    desired := sts.spec.replicas,
    ready := sts.status.readyReplicas,
    available := sts.status.availableReplicas,
    unavailable := sts.spec.replicas - sts.status.readyReplicas,
    healthy := sts.status.readyReplicas == sts.spec.replicas,
    pods := buckets.1, failingPods := buckets.2 }

/-- The group record built from a resolved DaemonSet (diagnoser.go:188-196). -/
def mkDsGroup (ds : DaemonSetK) (buckets : List PodStatus × List PodStatus) :
    PodGroupStatus :=
  { name := ds.name, kind := "DaemonSet",
    desired := ds.status.desiredNumberScheduled,
    ready := ds.status.numberReady,
    available := ds.status.numberAvailable,
    unavailable := ds.status.numberUnavailable,
    healthy := ds.status.numberReady == ds.status.desiredNumberScheduled,
    pods := buckets.1, failingPods := buckets.2 }

/-- The master block of `collectResourceStatus` (diagnoser.go:156-168). -/
def masterGroup (o : ClientOracle) (ns name : String) : Option PodGroupStatus :=
  match discardErrOpt (o.getStatefulSet ns (name ++ "-master")) with
  | some sts => some (mkStsGroup sts (collectPodStatus o ns name "master"))
  | none => none

/-- The worker block of `collectResourceStatus` (diagnoser.go:171-183). -/
def workersGroup (o : ClientOracle) (ns name : String) : Option PodGroupStatus :=
  match discardErrOpt (o.getStatefulSet ns (name ++ "-worker")) with
  | some sts => some (mkStsGroup sts (collectPodStatus o ns name "worker"))
  | none => none

/-- The fuse block of `collectResourceStatus` (diagnoser.go:186-198). -/
def fuseGroup (o : ClientOracle) (ns name : String) : Option PodGroupStatus :=
  match discardErrOpt (o.getDaemonSet ns (name ++ "-fuse")) with
  | some ds => some (mkDsGroup ds (collectPodStatus o ns name "fuse"))
  | none => none

/-- The PVC/PV block of `collectResourceStatus` (diagnoser.go:201-240). -/
def claimPart (o : ClientOracle) (ns name : String) :
    Option PVCDiagnostic × Option PVDiagnostic :=
  match discardErrOpt (o.getPVC ns name) with
  | some pvc =>
    let pvcD : Option PVCDiagnostic :=
      some { name := pvc.name, phase := pvc.phase, volumeName := pvc.volumeName,
             storageClass := pvc.storageClassName.getD "",
             capacity := pvc.capacityStorage.getD "" }
    let pvD : Option PVDiagnostic :=
      if pvc.volumeName ≠ "" then
        match o.getPV pvc.volumeName with
        | .ok pv =>
          some { name := pv.name, phase := pv.phase,
                 storageClass := pv.storageClassName,
                 capacity := pv.capacityStorage.getD "",
                 reclaimPolicy := pv.reclaimPolicy }
        | .error _ => none
      else none
    (pvcD, pvD)
  | none => (none, none)

/-- Translation of `collectResourceStatus` (diagnoser.go:154-243).  The Go
function writes into `result.Resources` and always returns a nil error, hence
the unconditional `.ok`. -/
def collectResourceStatus (o : ClientOracle) (ns name : String) :
    Except String DiagnosticResources :=
  .ok { master := masterGroup o ns name, workers := workersGroup o ns name,
        fuse := fuseGroup o ns name,
        pvc := (claimPart o ns name).1, pv := (claimPart o ns name).2 }

/-- `defaultTailLines` (diagnoser.go:33). -/
def defaultTailLines : Int := 100

/-- `maxLogsPerGroup` (diagnoser.go:34). -/
def maxLogsPerGroup : Nat := 2

/-- The worker/fuse log-entry pattern (diagnoser.go:330-343, 349-362,
371-383): the entry is pre-filled with pod, container and tail-lines; a fetch
error is recorded inline, success stores the text and sets `truncated` to
`len(logs) > 0`. -/
def fetchLogEntry (o : ClientOracle) (ns podName container : String) : LogEntry :=
  match o.getPodLogs ns podName container defaultTailLines with
  | .error e =>
    { podName := podName, containerName := container,
      tailLines := defaultTailLines, error := e }
  | .ok logs =>
    { podName := podName, containerName := container, logs := logs,
      tailLines := defaultTailLines, truncated := decide (0 < logs.length) }

/-- Translation of `collectLogs` (diagnoser.go:304-388).  Always returns a
nil error.  Note the master error entry (diagnoser.go:310-314) sets no
container name. -/
def collectLogs (o : ClientOracle) (ns : String) (res : DiagnosticResources) :
    Except String DiagnosticLogs :=
  let master :=
    match res.master with
    | some g =>
      match g.pods with
      | pod :: _ =>
        some (match o.getPodLogs ns pod.name "alluxio-master" defaultTailLines with
          | .error e =>
            { podName := pod.name, error := e, tailLines := defaultTailLines : LogEntry }
          | .ok logs =>
            { podName := pod.name, containerName := "alluxio-master", logs := logs,
              tailLines := defaultTailLines, truncated := decide (0 < logs.length) : LogEntry })
      | [] => none
    | none => none
  let workers :=
    match res.workers with
    | some g =>
      (match g.pods with
       | pod :: _ => [fetchLogEntry o ns pod.name "alluxio-worker"]
       | [] => []) ++
      (match g.failingPods with
       | pod :: _ => [fetchLogEntry o ns pod.name "alluxio-worker"]
       | [] => [])
    | none => []
  let fuse :=
    match res.fuse with
    | some g =>
      if g.failingPods ≠ [] then
        (g.failingPods.take maxLogsPerGroup).map
          (fun pod => fetchLogEntry o ns pod.name "alluxio-fuse")
      else []
    | none => []
  .ok { master := master, workers := workers, fuse := fuse }

/-- The restart-count hint (diagnoser.go:490-497). -/
def highRestartHint (component : String) (p : PodStatus) : FailureHint :=
  { severity := "warning", component := component,
    issue := "High restart count (" ++ toString p.restartCount ++ ") for pod " ++ p.name,
    suggestion := "Check pod logs for crash reasons" }

/-- Translation of the `checkRestartCounts` closure (diagnoser.go:488-499):
append one hint per pod whose restart count exceeds the fixed threshold 3. -/
def checkRestartCounts (component : String) (pods : List PodStatus) : List FailureHint :=
  pods.foldl
    (fun acc p => if 3 < p.restartCount then acc ++ [highRestartHint component p] else acc)
    []

/-- Per-event signature matching (diagnoser.go:452-485): a Warning event may
contribute an image-pull, an insufficiency and a mount hint, independently,
in that order. -/
def eventSignatureHints (e : EventInfo) : List FailureHint :=
  if e.type == "Warning" then
    (if containsStr "ImagePullBackOff" e.message || containsStr "ErrImagePull" e.message then
      [{ severity := "critical", component := e.objectKind,
         issue := "Image pull failure detected",
         suggestion := "Check image name, tag, and registry credentials",
         evidence := e.message }]
     else []) ++
    (if containsStr "Insufficient" e.message then
      [{ severity := "warning", component := e.objectKind,
         issue := "Resource insufficiency detected",
         suggestion := "Check node resources and pod resource requests",
         evidence := e.message }]
     else []) ++
    (if containsStr "FailedMount" e.message || containsStr "MountVolume" e.message then
      [{ severity := "critical", component := e.objectKind,
         issue := "Volume mount failure detected",
         suggestion := "Check PVC binding and CSI driver status",
         evidence := e.message }]
     else [])
  else []

/-- Dataset-phase hints (diagnoser.go:392-408). -/
def datasetPhaseHints (r : DiagnosticResult) : List FailureHint :=
  let phase := extractPhaseFromYAML r.datasetYAML
  if phase == "Pending" then
    [{ severity := "warning", component := "dataset",
       issue := "Dataset is in Pending phase",
       suggestion := "Check if a matching Runtime CR exists and is healthy" }]
  else if phase == "Failed" then
    [{ severity := "critical", component := "dataset",
       issue := "Dataset is in Failed phase",
       suggestion := "Check events and conditions for failure reason" }]
  else []

/-- Unhealthy-group hints (diagnoser.go:411-438). -/
def groupUnhealthyHints (r : DiagnosticResult) : List FailureHint :=
  (match r.resources.master with
   | some g =>
     if !g.healthy then
       [{ severity := "critical", component := "master",
          issue := "Master not healthy: " ++ toString g.ready ++ "/" ++
                   toString g.desired ++ " ready",
          suggestion := "Check master pod logs and events for errors" }]
     else []
   | none => []) ++
  (match r.resources.workers with
   | some g =>
     if !g.healthy then
       [{ severity := "warning", component := "worker",
          issue := "Workers not healthy: " ++ toString g.ready ++ "/" ++
                   toString g.desired ++ " ready",
          suggestion := "Check worker pod logs and node resources" }]
     else []
   | none => []) ++
  (match r.resources.fuse with
   | some g =>
     if !g.healthy then
       [{ severity := "warning", component := "fuse",
          issue := "Fuse not healthy: " ++ toString g.ready ++ "/" ++
                   toString g.desired ++ " ready",
          suggestion := "Check fuse pod logs and node selectors/tolerations" }]
     else []
   | none => [])

/-- Unbound-claim hint (diagnoser.go:441-448). -/
def pvcHints (r : DiagnosticResult) : List FailureHint :=
  match r.resources.pvc with
  | some p =>
    if !(p.phase == "Bound") then
      [{ severity := "critical", component := "pvc",
         issue := "PVC is not bound: " ++ p.phase,
         suggestion := "Check if the Dataset is bound to a Runtime" }]
    else []
  | none => []

/-- All hints appended by `analyzeAndGenerateHints` before the restart-count
checks, in program order, after the hints already present on the result. -/
def analyzeBaseHints (r : DiagnosticResult) : List FailureHint :=
  r.failureHints ++ datasetPhaseHints r ++ groupUnhealthyHints r ++ pvcHints r ++
  r.events.foldl (fun acc e => acc ++ eventSignatureHints e) []

/-- The six restart-count passes (diagnoser.go:501-512), in program order. -/
def restartSectionHints (r : DiagnosticResult) : List FailureHint :=
  (match r.resources.master with
   | some g => checkRestartCounts "master" g.pods ++ checkRestartCounts "master" g.failingPods
   | none => []) ++
  (match r.resources.workers with
   | some g => checkRestartCounts "worker" g.pods ++ checkRestartCounts "worker" g.failingPods
   | none => []) ++
  (match r.resources.fuse with
   | some g => checkRestartCounts "fuse" g.pods ++ checkRestartCounts "fuse" g.failingPods
   | none => [])

/-- Translation of `analyzeAndGenerateHints` (diagnoser.go:391-513): the
final hint list after all rule passes (the Go function appends to
`result.FailureHints` in place). -/
def analyzeAndGenerateHints (r : DiagnosticResult) : List FailureHint :=
  analyzeBaseHints r ++ restartSectionHints r

/-- The `allHealthy` computation of `determineHealthStatus`
(diagnoser.go:536-548). -/
def allHealthyCheck (r : DiagnosticResult) : Bool :=
  (match r.resources.master with | some g => g.healthy | none => true) &&
  (match r.resources.workers with | some g => g.healthy | none => true) &&
  (match r.resources.fuse with | some g => g.healthy | none => true) &&
  (match r.resources.pvc with | some p => p.phase == "Bound" | none => true)

/-- Translation of `determineHealthStatus` (diagnoser.go:516-555). -/
def determineHealthStatus (r : DiagnosticResult) : HealthStatus :=
  let hasCritical := r.failureHints.any (fun h => h.severity == "critical")
  let hasWarning := r.failureHints.any (fun h => h.severity == "warning")
  if hasCritical then .unhealthy
  else if hasWarning then .degraded
  else if allHealthyCheck r then .healthy
  else .degraded

/-- Translation of `collectCRSnapshots` (diagnoser.go:110-141); cleaning and
marshalling of the fetched CRs are pure total transforms folded into the
oracle's returned YAML text. -/
def collectCRSnapshots (o : ClientOracle) (ns name : String) (r : DiagnosticResult) :
    Except String DiagnosticResult :=
  match o.getDataset ns name with
  | .error e => .error ("failed to get dataset: " ++ e)
  | .ok datasetYAML =>
    let r1 := { r with datasetYAML := datasetYAML }
    match tryFindRuntime o ns name with
    | .error e => .error ("failed to find runtime: " ++ e)
    | .ok none => .ok r1
    | .ok (some rt) => .ok { r1 with runtimeType := rt.2, runtimeYAML := rt.1 }

/-- Translation of `collectEvents` (diagnoser.go:144-151). -/
def collectEvents (o : ClientOracle) (ns name : String) (r : DiagnosticResult) :
    Except String DiagnosticResult :=
  match getAllRelatedEvents o ns name with
  | .error e => .error e
  | .ok evs => .ok { r with events := evs }

/-- Translation of `Diagnose` (diagnoser.go:52-107).  A Go `(nil, err)`
return is `.error err`; `(result, nil)` is `.ok result`.  The three non-fatal
stage branches append the stage's warning hint exactly as the source does. -/
def Diagnose (o : ClientOracle) (ns name : String) : Except String DiagnosticResult :=
  let r0 : DiagnosticResult := { collectedAt := o.now, datasetName := name, ns := ns }
  match collectCRSnapshots o ns name r0 with
  | .error e => .error ("failed to collect CR snapshots: " ++ e)
  | .ok r1 =>
    let r2 :=
      match collectEvents o ns name r1 with
      | .error e =>
        { r1 with failureHints := r1.failureHints ++
            [({ severity := "warning", component := "events",
                issue := "Failed to collect events",
                suggestion := "Check RBAC permissions for event access",
                evidence := e } : FailureHint)] }
      | .ok r => r
    let r3 :=
      match collectResourceStatus o ns name with
      | .error e =>
        { r2 with failureHints := r2.failureHints ++
            [({ severity := "warning", component := "resources",
                issue := "Failed to collect resource status",
                suggestion := "Check RBAC permissions for pod/statefulset/daemonset access",
                evidence := e } : FailureHint)] }
      | .ok resources => { r2 with resources := resources }
    let r4 :=
      match collectLogs o ns r3.resources with
      | .error e =>
        { r3 with failureHints := r3.failureHints ++
            [({ severity := "warning", component := "logs",
                issue := "Failed to collect some logs",
                suggestion := "Check RBAC permissions for pod/log access",
                evidence := e } : FailureHint)] }
      | .ok logs => { r3 with logs := logs }
    let r5 := { r4 with failureHints := analyzeAndGenerateHints r4 }
    .ok { r5 with healthStatus := determineHealthStatus r5 }

/-- The `"<ready>/<desired>"` ratio string of `ToContext`. -/
def readyRatio (g : PodGroupStatus) : String :=
  toString g.ready ++ "/" ++ toString g.desired

/-- Translation of `ToContext` (diagnoser.go:558-618).  The Go `Logs` map is
built with the distinct keys "master", "worker-i", "fuse-i"; it is modelled
as the association list in insertion order. -/
def ToContext (r : DiagnosticResult) : DiagnosticContext :=
  let summary : ContextSummary :=
    { datasetName := r.datasetName, ns := r.ns,
      datasetPhase := extractPhaseFromYAML r.datasetYAML,
      runtimeType := r.runtimeType,
      healthStatus := r.healthStatus,
      masterReady := match r.resources.master with | some g => readyRatio g | none => "",
      workersReady := match r.resources.workers with | some g => readyRatio g | none => "",
      fuseReady := match r.resources.fuse with | some g => readyRatio g | none => "",
      pvcStatus := match r.resources.pvc with | some p => p.phase | none => "",
      errorCount := (r.failureHints.length : Int),
      warningCount := r.events.foldl (fun n e => if e.type == "Warning" then n + 1 else n) 0 }
  let masterLogs :=
    match r.logs.master with
    | some entry =>
      if entry.logs ≠ "" then [("master", normalizeLogs entry.logs)] else []
    | none => []
  let workerLogs :=
    r.logs.workers.enum.filterMap (fun ie =>
      if ie.2.logs ≠ "" then some ("worker-" ++ toString ie.1, normalizeLogs ie.2.logs)
      else none)
  let fuseLogs :=
    r.logs.fuse.enum.filterMap (fun ie =>
      if ie.2.logs ≠ "" then some ("fuse-" ++ toString ie.1, normalizeLogs ie.2.logs)
      else none)
  { summary := summary, datasetYAML := r.datasetYAML, runtimeYAML := r.runtimeYAML,
    events := r.events, failureHints := r.failureHints,
    collectedAt := r.collectedAt, version := "1.0",
    logs := masterLogs ++ workerLogs ++ fuseLogs }

/-- Spec-side predicate: at least one Finding with critical severity. -/
def HasCriticalFinding (r : DiagnosticResult) : Prop :=
  ∃ h ∈ r.failureHints, h.severity = "critical"

/-- Spec-side predicate: at least one Finding with warning severity. -/
def HasWarningFinding (r : DiagnosticResult) : Prop :=
  ∃ h ∈ r.failureHints, h.severity = "warning"

/-- Spec-side predicate: every resolved workload group is healthy and any
resolved claim has phase "Bound". -/
def AllResolvedHealthy (r : DiagnosticResult) : Prop :=
  (∀ g, r.resources.master = some g → g.healthy = true) ∧
  (∀ g, r.resources.workers = some g → g.healthy = true) ∧
  (∀ g, r.resources.fuse = some g → g.healthy = true) ∧
  (∀ p, r.resources.pvc = some p → p.phase = "Bound")

theorem allHealthyCheck_iff (r : DiagnosticResult) :
    allHealthyCheck r = true ↔ AllResolvedHealthy r := by
  unfold allHealthyCheck AllResolvedHealthy
  rcases hM : r.resources.master with _ | gM <;>
    rcases hW : r.resources.workers with _ | gW <;>
      rcases hF : r.resources.fuse with _ | gF <;>
        rcases hP : r.resources.pvc with _ | pP <;>
          simp [hM, hW, hF, hP, and_assoc]

theorem any_critical_iff (r : DiagnosticResult) :
    (r.failureHints.any fun h => h.severity == "critical") = true ↔
      HasCriticalFinding r := by
  simp [HasCriticalFinding, List.any_eq_true]

theorem any_warning_iff (r : DiagnosticResult) :
    (r.failureHints.any fun h => h.severity == "warning") = true ↔
      HasWarningFinding r := by
  simp [HasWarningFinding, List.any_eq_true]

/-- Claim C1: for every DiagnosticResult, the computed verdict is Unhealthy
iff some Finding has critical severity; with no critical Finding a warning
Finding forces Degraded; with neither, the verdict is Healthy exactly when
every resolved workload group is healthy and any resolved claim is Bound,
and Degraded otherwise. -/
theorem c1_verdict_characterization (r : DiagnosticResult) :
    (determineHealthStatus r = .unhealthy ↔ HasCriticalFinding r) ∧
    (¬ HasCriticalFinding r → HasWarningFinding r →
      determineHealthStatus r = .degraded) ∧
    (¬ HasCriticalFinding r → ¬ HasWarningFinding r →
      ((determineHealthStatus r = .healthy ↔ AllResolvedHealthy r) ∧
       (¬ AllResolvedHealthy r → determineHealthStatus r = .degraded))) := by
  by_cases hc : (r.failureHints.any fun h => h.severity == "critical") = true
  · have hcp : HasCriticalFinding r := (any_critical_iff r).mp hc
    refine ⟨⟨fun _ => hcp, fun _ => ?_⟩, fun hnc _ => absurd hcp hnc,
      fun hnc _ => absurd hcp hnc⟩
    simp [determineHealthStatus, hc]
  · have hcp : ¬ HasCriticalFinding r := fun h => hc ((any_critical_iff r).mpr h)
    by_cases hw : (r.failureHints.any fun h => h.severity == "warning") = true
    · have hwp : HasWarningFinding r := (any_warning_iff r).mp hw
      have hval : determineHealthStatus r = .degraded := by
        simp [determineHealthStatus, hc, hw]
      exact ⟨by simp [hval, hcp], fun _ _ => hval, fun _ hnw => absurd hwp hnw⟩
    · by_cases hh : allHealthyCheck r = true
      · have hval : determineHealthStatus r = .healthy := by
          simp [determineHealthStatus, hc, hw, hh]
        exact ⟨by simp [hval, hcp], fun _ hwp => absurd hwp (fun h => hw ((any_warning_iff r).mpr h)),
          fun _ _ => ⟨by simp [hval, (allHealthyCheck_iff r).mp hh],
            fun hna => absurd ((allHealthyCheck_iff r).mp hh) hna⟩⟩
      · have hval : determineHealthStatus r = .degraded := by
          simp [determineHealthStatus, hc, hw, hh]
        refine ⟨by simp [hval, hcp], fun _ hwp => hval, fun _ _ => ⟨?_, fun _ => hval⟩⟩
        rw [hval]
        constructor
        · intro h
          exact absurd h (by simp)
        · intro ha
          exact absurd ((allHealthyCheck_iff r).mpr ha) hh

/-- A result with a single critical Finding, for the C1 witness. -/
def rC1ex : DiagnosticResult :=
  { failureHints := [{ severity := "critical", component := "dataset",
                       issue := "Dataset is in Failed phase",
                       suggestion := "Check events and conditions for failure reason" }] }

theorem c1_verdict_witness : determineHealthStatus rC1ex = .unhealthy :=
  (c1_verdict_characterization rC1ex).1.mpr
    ⟨{ severity := "critical", component := "dataset",
       issue := "Dataset is in Failed phase",
       suggestion := "Check events and conditions for failure reason" },
     by simp [rC1ex], rfl⟩

/-- Claim C2 counterexample: the line "Api Key: x" contains the
secret-indicating token "api key" of the claim (case-insensitively), yet
`normalizeLogs` passes it through unchanged instead of replacing it with the
redaction marker — the code only matches "api_key"/"apikey", never
"api key" with a space. -/
theorem c2_api_key_counterexample :
    containsSeq ("api key".data) (toLowerC ("Api Key: x".data)) = true ∧
    normalizeLogs "Api Key: x" = "Api Key: x" ∧
    ("Api Key: x" : String) ≠ "[REDACTED]" := by
  refine ⟨by decide, by decide, by decide⟩

/-- Claim C2 (amended): log normalization maps each line of the input to the
redaction marker exactly when its lowercase content contains one of the
tokens password, secret, token, api_key, apikey, and passes every other line
through byte-for-byte; line structure is preserved. -/
theorem c2_redaction_line_characterization (s : String) :
    splitLinesC (normalizeLogs s).data =
      (splitLinesC s.data).map
        (fun l => if secretLineSpec l then "[REDACTED]".data else l) :=
  normalizeLogs_lines s

/-- Claim C6: the Context Normalizer is an idempotent pure projection —
`normalizeLogs` is idempotent, and every log value in a `ToContext` output is
already a fixpoint of `normalizeLogs`, so re-normalizing a produced context
changes nothing. -/
theorem c6_normalizer_idempotent :
    (∀ s, normalizeLogs (normalizeLogs s) = normalizeLogs s) ∧
    (∀ r : DiagnosticResult, ∀ kv ∈ (ToContext r).logs,
      normalizeLogs kv.2 = kv.2) := by
  refine ⟨normalizeLogs_idem, ?_⟩
  intro r kv hkv
  simp only [ToContext, List.mem_append] at hkv
  rcases hkv with (hkv | hkv) | hkv
  · rcases hmm : r.logs.master with _ | entry
    · rw [hmm] at hkv
      simp at hkv
    · rw [hmm] at hkv
      by_cases hne : entry.logs = ""
      · simp [hne] at hkv
      · simp [hne] at hkv
        rw [hkv]
        exact normalizeLogs_idem entry.logs
  · obtain ⟨ie, _, hie⟩ := List.mem_filterMap.mp hkv
    by_cases hne : ie.2.logs ≠ ""
    · rw [if_pos hne] at hie
      cases hie
      exact normalizeLogs_idem ie.2.logs
    · rw [if_neg hne] at hie
      cases hie
  · obtain ⟨ie, _, hie⟩ := List.mem_filterMap.mp hkv
    by_cases hne : ie.2.logs ≠ ""
    · rw [if_pos hne] at hie
      cases hie
      exact normalizeLogs_idem ie.2.logs
    · rw [if_neg hne] at hie
      cases hie

theorem c6_normalizer_witness :
    normalizeLogs (normalizeLogs "password=hunter2\nplain line") =
      normalizeLogs "password=hunter2\nplain line" :=
  c6_normalizer_idempotent.1 "password=hunter2\nplain line"

/-- First-match characterization of the runtime probe loop: the result is the
first kind in priority order for which the probe resolves. -/
theorem tryFindRuntimeAux_eq_findSome (probe : String → ProbeResult) :
    ∀ ks : List String,
      tryFindRuntimeAux probe ks =
        ks.findSome? (fun k =>
          match probe k with
          | .found yaml => some (yaml, k)
          | _ => none) := by
  intro ks
  induction ks with
  | nil => rfl
  | cons k rest ih =>
    simp only [tryFindRuntimeAux, List.findSome?]
    rcases probe k with yaml | _ | e <;> simp [ih]

/-- Claim C8 (amended): `TryFindRuntime` probes the variant kinds in the fixed
priority order, returns the first kind that resolves, never returns an error,
and treats exhaustion as a non-error `none`; a not-found signal and any other
probe failure are skipped identically (the wildcard arm of the inner match). -/
theorem c8_probe_first_match (o : ClientOracle) (ns name : String) :
    tryFindRuntime o ns name =
      .ok (runtimeTypesList.findSome? (fun k =>
        match o.probeRuntime ns name k with
        | .found yaml => some (yaml, k)
        | _ => none)) := by
  rw [tryFindRuntime, tryFindRuntimeAux_eq_findSome]

/-- Oracle whose every probe reports a transport failure. -/
def oC8transport : ClientOracle :=
  { probeRuntime := fun _ _ _ => .otherError "connection refused" }

/-- Oracle whose every probe reports not-found (the oracle default). -/
def oC8notfound : ClientOracle := {}

/-- Claim C8 counterexample: a run in which every probe hits a transport
failure is observably identical to one in which every kind is simply not
found — both yield no runtime and a nil error, so the two signals are not
distinguished, contrary to the claim. -/
theorem c8_not_distinguished_counterexample :
    tryFindRuntime oC8transport "ns" "d" = tryFindRuntime oC8notfound "ns" "d" ∧
    tryFindRuntime oC8transport "ns" "d" = .ok none := ⟨rfl, rfl⟩

/-- Membership in an insertion step. -/
theorem mem_insertEventDesc (e x : EventInfo) (l : List EventInfo) :
    x ∈ insertEventDesc e l ↔ x = e ∨ x ∈ l := by
  induction l with
  | nil => simp [insertEventDesc]
  | cons y ys ih =>
    simp only [insertEventDesc]
    split
    · simp [List.mem_cons]
    · simp only [List.mem_cons, ih]
      tauto

/-- Insertion preserves non-increasing ordering by lastTimestamp. -/
theorem pairwise_insertEventDesc (e : EventInfo) (l : List EventInfo)
    (h : l.Pairwise (fun a b => b.lastTimestamp ≤ a.lastTimestamp)) :
    (insertEventDesc e l).Pairwise (fun a b => b.lastTimestamp ≤ a.lastTimestamp) := by
  induction l with
  | nil => simp [insertEventDesc]
  | cons x xs ih =>
    rw [List.pairwise_cons] at h
    simp only [insertEventDesc]
    split
    · rename_i hlt
      rw [List.pairwise_cons]
      constructor
      · intro y hy
        rcases List.mem_cons.mp hy with hyx | hyxs
        · exact hyx ▸ le_of_lt hlt
        · exact le_trans (h.1 y hyxs) (le_of_lt hlt)
      · exact List.pairwise_cons.mpr h
    · rename_i hnlt
      rw [List.pairwise_cons]
      constructor
      · intro y hy
        rcases (mem_insertEventDesc e y xs).mp hy with hye | hyxs
        · exact hye ▸ le_of_not_lt hnlt
        · exact h.1 y hyxs
      · exact ih h.2

/-- The modelled `sort.Slice` output is sorted non-increasingly. -/
theorem sortEventsDesc_sorted (l : List EventInfo) :
    (sortEventsDesc l).Pairwise (fun a b => b.lastTimestamp ≤ a.lastTimestamp) := by
  induction l with
  | nil => simp [sortEventsDesc]
  | cons e es ih => exact pairwise_insertEventDesc e _ ih

/-- Claim C5: after collection the merged event list is sorted by
last-occurrence time, descending: each event's lastTimestamp is at least its
successor's. -/
theorem c5_events_sorted_descending (o : ClientOracle) (ns name : String)
    (evs : List EventInfo) (hok : getAllRelatedEvents o ns name = .ok evs)
    (i : Nat) (h : i + 1 < evs.length) :
    (evs.get ⟨i + 1, h⟩).lastTimestamp ≤
      (evs.get ⟨i, Nat.lt_of_succ_lt h⟩).lastTimestamp := by
  have hevs : ∃ src, evs = sortEventsDesc src := by
    rw [getAllRelatedEvents] at hok
    exact ⟨_, (Except.ok.injEq _ _ |>.mp hok).symm⟩
  obtain ⟨src, hsrc⟩ := hevs
  have hpw := hsrc ▸ sortEventsDesc_sorted src
  have := List.pairwise_iff_get.mp hpw ⟨i, Nat.lt_of_succ_lt h⟩ ⟨i + 1, h⟩
    (by simp)
  exact this

/-- Event fixtures for the C5 witness: two events with distinct timestamps,
listed out of order by the oracle. -/
def evOld : EventInfo := { type := "Normal", reason := "Created", lastTimestamp := 1 }

/-- The more recent C5 fixture event. -/
def evNew : EventInfo := { type := "Warning", reason := "BackOff", lastTimestamp := 5 }

/-- Oracle for the C5 witness: the dataset object has two events, newest
last, so collection must reorder them. -/
def oC5 : ClientOracle :=
  { listEventsFor := fun _ n => if n = "d5" then .ok [evOld, evNew] else .ok [] }

theorem c5_events_sorted_witness :
    getAllRelatedEvents oC5 "ns" "d5" = .ok [evNew, evOld] ∧
    (([evNew, evOld] : List EventInfo).get ⟨1, by decide⟩).lastTimestamp ≤
      (([evNew, evOld] : List EventInfo).get ⟨0, by decide⟩).lastTimestamp :=
  ⟨rfl, c5_events_sorted_descending oC5 "ns" "d5" [evNew, evOld] rfl 0 (by decide)⟩

/-- A discarded-error getter yields `some` only from a genuine `.ok (some _)`. -/
theorem discardErrOpt_eq_some {α : Type} (x : Except String (Option α)) (v : α)
    (h : discardErrOpt x = some v) : x = .ok (some v) := by
  cases x with
  | error e => simp [discardErrOpt] at h
  | ok o =>
    cases o with
    | none => simp [discardErrOpt] at h
    | some w =>
      simp [discardErrOpt] at h
      rw [h]

/-- The workload groups present in a `DiagnosticResources`, in order. -/
def groupsOf (res : DiagnosticResources) : List PodGroupStatus :=
  res.master.toList ++ res.workers.toList ++ res.fuse.toList

theorem bucketPods_foldl (l : List PodStatus) (a b : List PodStatus) :
    l.foldl (fun acc st => if st.ready then (acc.1 ++ [st], acc.2) else (acc.1, acc.2 ++ [st])) (a, b)
      = (a ++ l.filter (fun p => p.ready), b ++ l.filter (fun p => !p.ready)) := by
  induction l generalizing a b with
  | nil => simp
  | cons p ps ih =>
    by_cases hp : p.ready
    · simp [List.foldl_cons, hp, ih, List.filter_cons]
    · simp [List.foldl_cons, hp, ih, List.filter_cons]

/-- The bucketing loop splits the statuses into the ready and non-ready
filters. -/
theorem bucketPods_eq (l : List PodStatus) :
    bucketPods l = (l.filter (fun p => p.ready), l.filter (fun p => !p.ready)) := by
  simpa [bucketPods] using bucketPods_foldl l [] []

/-- `collectPodStatus` always produces a (ready-filter, non-ready-filter)
pair of some status list (the empty list when the pod listing fails). -/
theorem collectPodStatus_filter (o : ClientOracle) (ns n role : String) :
    ∃ ps : List PodStatus,
      collectPodStatus o ns n role =
        (ps.filter (fun p => p.ready), ps.filter (fun p => !p.ready)) := by
  cases h : o.listPodsByLabel ns ("release=" ++ n ++ ",role=alluxio-" ++ role) with
  | error e => exact ⟨[], by simp [collectPodStatus, h]⟩
  | ok pods => exact ⟨pods.map extractPodStatus, by simp [collectPodStatus, h, bucketPods_eq]⟩

theorem masterGroup_spec (o : ClientOracle) (ns name : String) (g : PodGroupStatus)
    (h : masterGroup o ns name = some g) :
    ∃ sts, discardErrOpt (o.getStatefulSet ns (name ++ "-master")) = some sts ∧
      g = mkStsGroup sts (collectPodStatus o ns name "master") := by
  rw [masterGroup] at h
  cases hd : discardErrOpt (o.getStatefulSet ns (name ++ "-master")) with
  | none => rw [hd] at h; simp at h
  | some sts =>
    rw [hd] at h
    simp at h
    exact ⟨sts, rfl, h.symm⟩

theorem workersGroup_spec (o : ClientOracle) (ns name : String) (g : PodGroupStatus)
    (h : workersGroup o ns name = some g) :
    ∃ sts, discardErrOpt (o.getStatefulSet ns (name ++ "-worker")) = some sts ∧
      g = mkStsGroup sts (collectPodStatus o ns name "worker") := by
  rw [workersGroup] at h
  cases hd : discardErrOpt (o.getStatefulSet ns (name ++ "-worker")) with
  | none => rw [hd] at h; simp at h
  | some sts =>
    rw [hd] at h
    simp at h
    exact ⟨sts, rfl, h.symm⟩

theorem fuseGroup_spec (o : ClientOracle) (ns name : String) (g : PodGroupStatus)
    (h : fuseGroup o ns name = some g) :
    ∃ ds, discardErrOpt (o.getDaemonSet ns (name ++ "-fuse")) = some ds ∧
      g = mkDsGroup ds (collectPodStatus o ns name "fuse") := by
  rw [fuseGroup] at h
  cases hd : discardErrOpt (o.getDaemonSet ns (name ++ "-fuse")) with
  | none => rw [hd] at h; simp at h
  | some ds =>
    rw [hd] at h
    simp at h
    exact ⟨ds, rfl, h.symm⟩

/-- Membership in the concatenation of the two pod filters determines, via the
ready flag alone, which filter a pod belongs to. -/
theorem filter_partition_mem (ps : List PodStatus) (p : PodStatus)
    (hp : p ∈ ps.filter (fun q => q.ready) ++ ps.filter (fun q => !q.ready)) :
    (p ∈ ps.filter (fun q => q.ready) ↔ p.ready = true) ∧
    (p ∈ ps.filter (fun q => !q.ready) ↔ p.ready = false) := by
  have hmem : p ∈ ps := by
    rcases List.mem_append.mp hp with h | h
    · exact (List.mem_filter.mp h).1
    · exact (List.mem_filter.mp h).1
  constructor
  · constructor
    · intro h
      exact (List.mem_filter.mp h).2
    · intro h
      exact List.mem_filter.mpr ⟨hmem, h⟩
  · constructor
    · intro h
      have := (List.mem_filter.mp h).2
      simpa using this
    · intro h
      exact List.mem_filter.mpr ⟨hmem, by simp [h]⟩

/-- Claim C7: every workload group built by the resource-status stage has
`healthy` true exactly when `ready = desired`, its two pod lists are the
ready/non-ready filters of one collected status list, and membership of a pod
in either list is determined solely by its ready flag. -/
theorem c7_group_partition (o : ClientOracle) (ns name : String)
    (res : DiagnosticResources) (hres : collectResourceStatus o ns name = .ok res)
    (g : PodGroupStatus) (hg : g ∈ groupsOf res) :
    (g.healthy = true ↔ g.ready = g.desired) ∧
    (∃ ps : List PodStatus, g.pods = ps.filter (fun p => p.ready) ∧
      g.failingPods = ps.filter (fun p => !p.ready)) ∧
    (∀ p ∈ g.pods ++ g.failingPods,
      (p ∈ g.pods ↔ p.ready = true) ∧ (p ∈ g.failingPods ↔ p.ready = false)) := by
  rw [collectResourceStatus] at hres
  have hres2 := (Except.ok.injEq _ _ |>.mp hres)
  rw [← hres2, groupsOf] at hg
  simp only [List.mem_append, Option.mem_toList, Option.mem_def] at hg
  rcases hg with (hm | hw) | hf
  · obtain ⟨sts, _, hgdef⟩ := masterGroup_spec o ns name g hm
    obtain ⟨ps, hps⟩ := collectPodStatus_filter o ns name "master"
    subst hgdef
    rw [hps]
    refine ⟨by simp [mkStsGroup], ⟨ps, rfl, rfl⟩, ?_⟩
    intro p hp
    exact filter_partition_mem ps p hp
  · obtain ⟨sts, _, hgdef⟩ := workersGroup_spec o ns name g hw
    obtain ⟨ps, hps⟩ := collectPodStatus_filter o ns name "worker"
    subst hgdef
    rw [hps]
    refine ⟨by simp [mkStsGroup], ⟨ps, rfl, rfl⟩, ?_⟩
    intro p hp
    exact filter_partition_mem ps p hp
  · obtain ⟨ds, _, hgdef⟩ := fuseGroup_spec o ns name g hf
    obtain ⟨ps, hps⟩ := collectPodStatus_filter o ns name "fuse"
    subst hgdef
    rw [hps]
    refine ⟨by simp [mkDsGroup], ⟨ps, rfl, rfl⟩, ?_⟩
    intro p hp
    exact filter_partition_mem ps p hp

/-- A ready pod fixture for the C7 witness. -/
def podC7 : PodK :=
  { name := "d7-master-0", phase := "Running",
    conditions := [{ type := "Ready", status := "True" }] }

/-- StatefulSet fixture for the C7 witness. -/
def stsC7 : StatefulSetK :=
  { name := "d7-master", spec := { replicas := 1 },
    status := { readyReplicas := 1, availableReplicas := 1 } }

/-- Oracle for the C7 witness: one master StatefulSet with one ready pod. -/
def oC7 : ClientOracle :=
  { getStatefulSet := fun _ n => if n = "d7-master" then .ok (some stsC7) else .ok none,
    listPodsByLabel := fun _ sel =>
      if sel = "release=d7,role=alluxio-master" then .ok [podC7] else .ok [] }

/-- The master group the C7 witness oracle produces. -/
def gC7ex : PodGroupStatus := mkStsGroup stsC7 ([extractPodStatus podC7], [])

/-- The resources record the C7 witness oracle produces. -/
def resC7ex : DiagnosticResources := { master := some gC7ex }

theorem c7_partition_witness : gC7ex.healthy = true ↔ gC7ex.ready = gC7ex.desired :=
  (c7_group_partition oC7 "ns" "d7" resC7ex rfl gC7ex
    (by simp [groupsOf, resC7ex])).1

/-- Well-formedness of the StatefulSet status fields the amended C4 claim
assumes: counts are non-negative and no more pods are ready than desired. -/
def StsWellFormed (s : StatefulSetK) : Prop :=
  0 ≤ s.status.readyReplicas ∧ s.status.readyReplicas ≤ s.spec.replicas ∧
  0 ≤ s.status.availableReplicas

/-- Well-formedness of the DaemonSet status fields the amended C4 claim
assumes. -/
def DsWellFormed (d : DaemonSetK) : Prop :=
  0 ≤ d.status.numberReady ∧
  d.status.numberReady ≤ d.status.desiredNumberScheduled ∧
  0 ≤ d.status.numberAvailable ∧ 0 ≤ d.status.numberUnavailable

/-- Claim C4 (amended): for every workload group built by the resource-status
stage, the ready/available/unavailable counts are non-negative and
ready ≤ desired, provided the underlying StatefulSet/DaemonSet status fields
are well-formed (0 ≤ ready ≤ desired, non-negative available/unavailable);
with arbitrary status fields the bounds can fail, see the counterexample. -/
theorem c4_group_count_bounds (o : ClientOracle) (ns name : String)
    (hsts : ∀ n s, o.getStatefulSet ns n = .ok (some s) → StsWellFormed s)
    (hds : ∀ n d, o.getDaemonSet ns n = .ok (some d) → DsWellFormed d)
    (res : DiagnosticResources) (hres : collectResourceStatus o ns name = .ok res)
    (g : PodGroupStatus) (hg : g ∈ groupsOf res) :
    0 ≤ g.ready ∧ 0 ≤ g.available ∧ 0 ≤ g.unavailable ∧ g.ready ≤ g.desired := by
  rw [collectResourceStatus] at hres
  have hres2 := (Except.ok.injEq _ _ |>.mp hres)
  rw [← hres2, groupsOf] at hg
  simp only [List.mem_append, Option.mem_toList, Option.mem_def] at hg
  rcases hg with (hm | hw) | hf
  · obtain ⟨sts, hds2, hgdef⟩ := masterGroup_spec o ns name g hm
    obtain ⟨h1, h2, h3⟩ := hsts _ sts (discardErrOpt_eq_some _ _ hds2)
    subst hgdef
    simp only [mkStsGroup]
    omega
  · obtain ⟨sts, hds2, hgdef⟩ := workersGroup_spec o ns name g hw
    obtain ⟨h1, h2, h3⟩ := hsts _ sts (discardErrOpt_eq_some _ _ hds2)
    subst hgdef
    simp only [mkStsGroup]
    omega
  · obtain ⟨ds, hds2, hgdef⟩ := fuseGroup_spec o ns name g hf
    obtain ⟨h1, h2, h3, h4⟩ := hds _ ds (discardErrOpt_eq_some _ _ hds2)
    subst hgdef
    simp only [mkDsGroup]
    omega

/-- Oracle for the C4 counterexample: the master StatefulSet reports more
ready replicas than its spec desires (a transient Kubernetes state the code
does not guard against). -/
def oC4bad : ClientOracle :=
  { getStatefulSet := fun _ n =>
      if n = "d4-master" then
        .ok (some { name := "d4-master", spec := { replicas := 1 },
                    status := { readyReplicas := 2, availableReplicas := 0 } })
      else .ok none }

/-- Claim C4 counterexample: with spec.replicas = 1 and readyReplicas = 2 the
built master group has ready = 2 > desired = 1 and unavailable = -1 < 0, so
the claimed bounds do not hold for every value of the underlying fields. -/
theorem c4_negative_count_counterexample :
    ((collectResourceStatus oC4bad "ns" "d4").toOption.bind
        (fun res => res.master)).map (fun g => (g.desired, g.ready, g.unavailable)) =
      some (1, 2, -1) ∧ ((-1 : Int) < 0 ∧ ¬ ((2 : Int) ≤ 1)) :=
  ⟨rfl, by decide⟩

/-- Oracle for the C4 witness: a well-formed master StatefulSet. -/
def oC4good : ClientOracle :=
  { getStatefulSet := fun _ n =>
      if n = "d4-master" then
        .ok (some { name := "d4-master", spec := { replicas := 2 },
                    status := { readyReplicas := 1, availableReplicas := 1 } })
      else .ok none }

/-- The master group the C4 witness oracle produces. -/
def gC4ex : PodGroupStatus :=
  mkStsGroup { name := "d4-master", spec := { replicas := 2 },
               status := { readyReplicas := 1, availableReplicas := 1 } } ([], [])

/-- The resources record the C4 witness oracle produces. -/
def resC4ex : DiagnosticResources := { master := some gC4ex }

theorem c4_bounds_witness :
    0 ≤ gC4ex.ready ∧ 0 ≤ gC4ex.available ∧ 0 ≤ gC4ex.unavailable ∧
      gC4ex.ready ≤ gC4ex.desired := by
  refine c4_group_count_bounds oC4good "ns" "d4" ?_ ?_ resC4ex rfl gC4ex
    (by simp [groupsOf, resC4ex])
  · intro n s h
    by_cases hn : n = "d4-master"
    · subst hn
      simp [oC4good] at h
      rw [← h]
      refine ⟨by decide, by decide, by decide⟩
    · simp [oC4good, hn] at h
  · intro n d h
    simp [oC4good] at h

theorem checkRestart_foldl (c : String) (ps : List PodStatus) (acc : List FailureHint) :
    ps.foldl (fun acc p => if 3 < p.restartCount then acc ++ [highRestartHint c p] else acc) acc
      = acc ++ (ps.filter (fun p => decide (3 < p.restartCount))).map (highRestartHint c) := by
  induction ps generalizing acc with
  | nil => simp
  | cons p rest ih =>
    by_cases hp : 3 < p.restartCount
    · simp [List.foldl_cons, List.filter_cons, hp, ih]
    · simp [List.foldl_cons, List.filter_cons, hp, ih]

/-- The restart-count pass emits exactly one hint per pod over the threshold,
in traversal order, and none for the others. -/
theorem checkRestartCounts_eq (c : String) (ps : List PodStatus) :
    checkRestartCounts c ps =
      (ps.filter (fun p => decide (3 < p.restartCount))).map (highRestartHint c) := by
  simpa [checkRestartCounts] using checkRestart_foldl c ps []

/-- All pods of all resolved groups (healthy then failing, master, worker,
fuse order), each tagged with its component name — the traversal order of the
restart-count passes. -/
def restartTargets (r : DiagnosticResult) : List (PodStatus × String) :=
  (match r.resources.master with
   | some g => (g.pods ++ g.failingPods).map (fun p => (p, "master"))
   | none => []) ++
  (match r.resources.workers with
   | some g => (g.pods ++ g.failingPods).map (fun p => (p, "worker"))
   | none => []) ++
  (match r.resources.fuse with
   | some g => (g.pods ++ g.failingPods).map (fun p => (p, "fuse"))
   | none => [])

theorem restart_map_pair (c : String) (l : List PodStatus) :
    ((l.map (fun p => (p, c))).filter (fun pc => decide (3 < pc.1.restartCount))).map
        (fun pc => highRestartHint pc.2 pc.1) =
      checkRestartCounts c l := by
  rw [checkRestartCounts_eq]
  induction l with
  | nil => rfl
  | cons p ps ih =>
    by_cases hp : 3 < p.restartCount
    · simp [List.filter_cons, hp] at ih ⊢
      exact ih
    · simp [List.filter_cons, hp] at ih ⊢
      exact ih

theorem checkRestartCounts_append (c : String) (l1 l2 : List PodStatus) :
    checkRestartCounts c (l1 ++ l2) = checkRestartCounts c l1 ++ checkRestartCounts c l2 := by
  simp [checkRestartCounts_eq, List.filter_append]

/-- A pod over the restart threshold, for C9. -/
def pod5ex : PodStatus :=
  { name := "worker-0", phase := "Running", ready := true, restartCount := 5 }

/-- A pod under the restart threshold, for C9. -/
def pod2ex : PodStatus :=
  { name := "worker-1", phase := "Running", ready := false, restartCount := 2 }

/-- Claim C9: the Analyzer's output is its pre-restart hints followed by
exactly one warning Finding, citing pod name and restart count, for each pod
(healthy or failing, across all groups, in traversal order) whose restart
count exceeds the fixed threshold 3 — and none for any other pod.
Concretely, a restart count of 5 yields exactly one such Finding and a count
of 2 yields none. -/
theorem c9_restart_findings (r : DiagnosticResult) :
    (analyzeAndGenerateHints r = analyzeBaseHints r ++
      ((restartTargets r).filter (fun pc => decide (3 < pc.1.restartCount))).map
        (fun pc => highRestartHint pc.2 pc.1)) ∧
    checkRestartCounts "worker" [pod5ex, pod2ex] = [highRestartHint "worker" pod5ex] := by
  constructor
  · rw [analyzeAndGenerateHints]
    congr 1
    rcases hM : r.resources.master with _ | gM <;>
      rcases hW : r.resources.workers with _ | gW <;>
        rcases hF : r.resources.fuse with _ | gF <;>
          simp [restartSectionHints, restartTargets, hM, hW, hF,
            List.filter_append, List.map_append, restart_map_pair,
            checkRestartCounts_append]
  · rfl

/-- All log entries of a `DiagnosticLogs`, in collection order. -/
def allLogEntries (dl : DiagnosticLogs) : List LogEntry :=
  dl.master.toList ++ dl.workers ++ dl.fuse

/-- Go `len(logs) > 0` agrees with string non-emptiness. -/
theorem trunc_decide (s : String) : decide (0 < s.length) = decide (s ≠ "") := by
  rw [decide_eq_decide]
  have h1 : (0 < s.length) ↔ s.data ≠ [] := List.length_pos
  rw [h1]
  constructor
  · intro h hs
    exact h (congrArg String.data hs)
  · intro h hs
    exact h (String.ext hs)

theorem fetchLogEntry_spec (o : ClientOracle) (ns p c : String) :
    ((fetchLogEntry o ns p c).truncated = decide ((fetchLogEntry o ns p c).logs ≠ "")) ∧
    ((fetchLogEntry o ns p c).error ≠ "" →
      (fetchLogEntry o ns p c).truncated = false ∧ (fetchLogEntry o ns p c).logs = "") := by
  cases h : o.getPodLogs ns p c defaultTailLines with
  | error e => simp [fetchLogEntry, h]
  | ok logs => simp [fetchLogEntry, h, trunc_decide]

/-- Claim C10: for every LogEntry produced by the log stage, the Truncated
flag is set exactly when the stored log text is non-empty (on a successful
fetch, exactly when the fetched text is non-empty — it does not record an
actual tail cut-off), and an entry whose fetch failed has Truncated false and
empty text, with the error recorded inline. -/
theorem c10_truncated_iff_nonempty (o : ClientOracle) (ns : String)
    (res : DiagnosticResources) (dl : DiagnosticLogs)
    (hdl : collectLogs o ns res = .ok dl) (entry : LogEntry)
    (he : entry ∈ allLogEntries dl) :
    (entry.truncated = decide (entry.logs ≠ "")) ∧
    (entry.error ≠ "" → entry.truncated = false ∧ entry.logs = "") := by
  rw [collectLogs] at hdl
  have hdl2 := (Except.ok.injEq _ _).mp hdl
  rw [← hdl2, allLogEntries] at he
  simp only [List.mem_append] at he
  rcases he with (hm | hw) | hf
  · rcases hM : res.master with _ | g
    · simp [hM] at hm
    · simp only [hM] at hm
      rcases hp : g.pods with _ | ⟨pod, rest⟩
      · simp [hp] at hm
      · simp only [hp] at hm
        simp at hm
        cases hlog : o.getPodLogs ns pod.name "alluxio-master" defaultTailLines with
        | error e =>
          simp only [hlog] at hm
          subst hm
          simp
        | ok logs =>
          simp only [hlog] at hm
          subst hm
          simp [trunc_decide]
  · rcases hW : res.workers with _ | g
    · simp [hW] at hw
    · simp only [hW] at hw
      rcases hp : g.pods with _ | ⟨pod, rest⟩
      · rcases hfp : g.failingPods with _ | ⟨fpod, frest⟩
        · simp [hp, hfp] at hw
        · simp only [hp, hfp] at hw
          simp at hw
          subst hw
          exact fetchLogEntry_spec o ns fpod.name "alluxio-worker"
      · rcases hfp : g.failingPods with _ | ⟨fpod, frest⟩
        · simp only [hp, hfp] at hw
          simp at hw
          subst hw
          exact fetchLogEntry_spec o ns pod.name "alluxio-worker"
        · simp only [hp, hfp] at hw
          simp at hw
          rcases hw with hw | hw <;> subst hw
          · exact fetchLogEntry_spec o ns pod.name "alluxio-worker"
          · exact fetchLogEntry_spec o ns fpod.name "alluxio-worker"
  · rcases hF : res.fuse with _ | g
    · simp [hF] at hf
    · simp only [hF] at hf
      by_cases hne : g.failingPods = []
      · simp [hne] at hf
      · rw [if_pos hne] at hf
        obtain ⟨pod, _, hpe⟩ := List.mem_map.mp hf
        rw [← hpe]
        exact fetchLogEntry_spec o ns pod.name "alluxio-fuse"

/-- Oracle for the C10 witness: logs resolve for pod "w0" and fail for every
other pod. -/
def oC10 : ClientOracle :=
  { getPodLogs := fun _ p _ _ => if p = "w0" then .ok "hello" else .error "denied" }

/-- StatefulSet fixture for the C10 witness. -/
def stsC10 : StatefulSetK :=
  { name := "d-worker", spec := { replicas := 2 },
    status := { readyReplicas := 1, availableReplicas := 1 } }

/-- Healthy worker pod fixture for the C10 witness. -/
def podW0 : PodStatus := { name := "w0", phase := "Running", ready := true }

/-- Failing worker pod fixture for the C10 witness. -/
def podW1 : PodStatus := { name := "w1", phase := "Pending" }

/-- Resources for the C10 witness: a worker group with one healthy and one
failing pod. -/
def resC10 : DiagnosticResources :=
  { workers := some (mkStsGroup stsC10 ([podW0], [podW1])) }

/-- Log entries the C10 witness oracle produces. -/
def dlC10 : DiagnosticLogs :=
  { workers := [fetchLogEntry oC10 "ns" "w0" "alluxio-worker",
                fetchLogEntry oC10 "ns" "w1" "alluxio-worker"] }

theorem c10_truncated_witness :
    (fetchLogEntry oC10 "ns" "w0" "alluxio-worker").truncated =
      decide ((fetchLogEntry oC10 "ns" "w0" "alluxio-worker").logs ≠ "") :=
  (c10_truncated_iff_nonempty oC10 "ns" resC10 dlC10 rfl
    (fetchLogEntry oC10 "ns" "w0" "alluxio-worker")
    (by simp [allLogEntries, dlC10])).1

/-- Claim C3 (amended): if the Dataset fetch fails, `Diagnose` returns the
wrapped error and no result; once the snapshot stage succeeds `Diagnose`
always returns a result — the later stage functions always return a nil
error (their internal fetch failures are swallowed as partial data), so the
stage-level warning-Finding branches in `Diagnose` never fire. -/
theorem c3_stage1_fatal_then_total (o : ClientOracle) (ns name : String) :
    (∀ e, o.getDataset ns name = .error e →
      Diagnose o ns name =
        .error ("failed to collect CR snapshots: " ++ ("failed to get dataset: " ++ e))) ∧
    (∀ y, o.getDataset ns name = .ok y → ∃ r, Diagnose o ns name = .ok r) := by
  constructor
  · intro e he
    simp [Diagnose, collectCRSnapshots, he]
  · intro y hy
    cases hD : Diagnose o ns name with
    | ok r => exact ⟨r, rfl⟩
    | error e =>
      rcases htr : tryFindRuntimeAux (fun k => o.probeRuntime ns name k) runtimeTypesList
          with _ | rt <;>
        simp only [Diagnose, collectCRSnapshots, hy, tryFindRuntime, htr, collectEvents,
          getAllRelatedEvents, collectResourceStatus, collectLogs] at hD <;>
        exact Except.noConfusion hD

/-- Oracle for the C3 counterexample: the Dataset resolves but both the event
listing and the pod listing fail. -/
def oC3 : ClientOracle :=
  { getDataset := fun _ _ => .ok "status:\n  phase: Bound",
    listEventsFor := fun _ _ => .error "rbac: events list denied",
    listPodsByLabel := fun _ _ => .error "rbac: pods list denied" }

/-- Claim C3 counterexample: with every event/pod listing failing, `Diagnose`
still succeeds but the result carries zero FailureHints (and zero events) —
the event-stage failure is not absorbed as a warning-severity Finding,
because `GetAllRelatedEvents` discards every inner error and returns nil. -/
theorem c3_no_stage_warning_counterexample :
    oC3.listEventsFor "ns" "d3" = .error "rbac: events list denied" ∧
    (Diagnose oC3 "ns" "d3").toOption.map (fun r => (r.failureHints, r.events)) =
      some ([], []) :=
  ⟨rfl, rfl⟩

/-- Oracle whose Dataset fetch fails (all other fields default). -/
def oC3err : ClientOracle := {}

theorem c3_stage1_witness :
    Diagnose oC3err "ns" "d" =
      .error "failed to collect CR snapshots: failed to get dataset: dataset not found" ∧
    ∃ r, Diagnose oC3 "ns" "d3" = .ok r :=
  ⟨(c3_stage1_fatal_then_total oC3err "ns" "d").1 "dataset not found" rfl,
   (c3_stage1_fatal_then_total oC3 "ns" "d3").2 "status:\n  phase: Bound" rfl⟩
